import Mathlib

/-!
# Verification of the pharmacy directory data-synchronization routine

Shallow embedding of the repository Scrapping-Pharmacie-V1 (backend/scraper.py,
backend/models.py), covering:

* the `Pharmacie` entity and its `create_from_dict` / `update_from_dict` methods,
* the reconcile-and-persist routine `save_pharmacies_to_db`,
* the orchestrator `run_full_scraping`,
* the geocoder adapter `_geocode_address`,
* the phone field extractor `_extract_phone` (regex engine for its three patterns),
* the record source providers (`_scrape_pharmacies_garde`, `_scrape_annuaire_pharmacies`,
  `_get_pharmacies_populaires`, `scrape_pharmacies_abidjan`).

Python dictionaries carrying candidate records distinguish an absent key from a key
mapped to `None`; a candidate field is therefore modelled as `Option (Option α)`
(outer layer: key present?, inner layer: value or null).  Exceptions are modelled
with `Except` / explicit failure-injection parameters; the current wall-clock time
and the external geocoding service are oracle parameters.  Floats are modelled as
rationals (no arithmetic on them occurs in the verified code paths).
-/

/-- A candidate record, i.e. one of the Python dicts flowing from the source
providers into `save_pharmacies_to_db`.  Each field is `none` when the key is
absent from the dict, `some none` when the key is present and mapped to `None`,
and `some (some v)` when the key is present with value `v`. -/
structure PharmaData where
  nom : Option (Option String) := none
  adresse : Option (Option String) := none
  latitude : Option (Option Rat) := none
  longitude : Option (Option Rat) := none
  telephone : Option (Option String) := none
  email : Option (Option String) := none
  horaires : Option (Option String) := none
deriving DecidableEq, Repr

/-- The persisted `Pharmacie` row (models.py).  The `id` column is system-assigned
and never read by the reconciliation code, so it is omitted; a row's identity is
its position in the store list.  Timestamps are modelled as natural numbers. -/
structure Pharmacie where
  nom : Option String
  adresse : Option String
  latitude : Option Rat
  longitude : Option Rat
  telephone : Option String
  email : Option String
  horaires : Option String
  date_creation : Nat
  date_maj : Nat
deriving DecidableEq, Repr

/-- `Pharmacie.create_from_dict` (models.py lines 76-95): every column is set from
`data.get(key)`, which yields `None` both for an absent key and for a key mapped
to `None` — hence `Option.join`.  The `date_creation` / `date_maj` column defaults
(`datetime.utcnow`) fire when the row is inserted; `now` is the clock oracle. -/
def Pharmacie.create_from_dict (data : PharmaData) (now : Nat) : Pharmacie :=
  { nom := data.nom.join
    adresse := data.adresse.join
    latitude := data.latitude.join
    longitude := data.longitude.join
    telephone := data.telephone.join
    email := data.email.join
    horaires := data.horaires.join
    date_creation := now
    date_maj := now }

/-- `Pharmacie.update_from_dict` (models.py lines 97-120): each `if key in data:`
guard overwrites the column exactly when the key is present (even when its value
is `None`); `date_maj` is refreshed to the current time, `date_creation` is not
touched. -/
def Pharmacie.update_from_dict (p : Pharmacie) (data : PharmaData) (now : Nat) : Pharmacie :=
  { nom := match data.nom with | some v => v | none => p.nom
    adresse := match data.adresse with | some v => v | none => p.adresse
    latitude := match data.latitude with | some v => v | none => p.latitude
    longitude := match data.longitude with | some v => v | none => p.longitude
    telephone := match data.telephone with | some v => v | none => p.telephone
    email := match data.email with | some v => v | none => p.email
    horaires := match data.horaires with | some v => v | none => p.horaires
    date_creation := p.date_creation
    date_maj := now }

/-- The value `pharma_data[\x27nom\x27]` used by the reconciliation lookup, once the
key is known to be present (`Option.join` collapses the presence layer). -/
def nomKey (d : PharmaData) : Option String := d.nom.join

/-- Mutate the first element of the working set satisfying `pred` in place
(`Pharmacie.query.filter_by(nom=...).first()` followed by an in-session ORM
mutation leaves the row at its position). -/
def updateFirst (pred : Pharmacie → Bool) (f : Pharmacie → Pharmacie) :
    List Pharmacie → List Pharmacie
  | [] => []
  | p :: ps => if pred p then f p :: ps else p :: updateFirst pred f ps

/-- One iteration of the loop in `save_pharmacies_to_db` (scraper.py lines 296-310):
look up an existing row by exact `nom` equality; update the first match in place
if found, otherwise create a new row and add it to the session (appended at the
end of the working set). -/
def reconcileOne (w : List Pharmacie) (d : PharmaData) (now : Nat) : List Pharmacie :=
  if w.any (fun p => p.nom == nomKey d) then
    updateFirst (fun p => p.nom == nomKey d) (fun p => p.update_from_dict d now) w
  else
    w ++ [Pharmacie.create_from_dict d now]

/-- The whole reconciliation loop as a fold over the candidate batch, acting on
the session's working set, ignoring storage constraints (used to state and
prove what a successful loop computes). -/
def fullRun (batch : List PharmaData) (now : Nat) (w : List Pharmacie) : List Pharmacie :=
  batch.foldl (fun acc d => reconcileOne acc d now) w

/-- The NOT NULL constraints of the pharmacies table (models.py lines 31-32):
`nom` and `adresse` are declared `nullable=False`, every other column is
nullable.  A row image violating this cannot be written: SQLite raises
IntegrityError when the INSERT or UPDATE is flushed. -/
def Pharmacie.validRow (p : Pharmacie) : Bool := p.nom.isSome && p.adresse.isSome

/-- In-place merge of a candidate into a matched row together with the NOT
NULL check the written row image must pass when it is flushed; `none` models
the IntegrityError. -/
def chkMerge (p : Pharmacie) (d : PharmaData) (now : Nat) : Option Pharmacie :=
  if (p.update_from_dict d now).validRow then some (p.update_from_dict d now) else none

/-- `create_from_dict` followed by the NOT NULL check its INSERT must pass at
flush; `none` models the IntegrityError. -/
def chkCreate (d : PharmaData) (now : Nat) : Option Pharmacie :=
  if (Pharmacie.create_from_dict d now).validRow then
    some (Pharmacie.create_from_dict d now)
  else none

/-- The body of the reconciliation loop with the flush constraint: the first
row whose `nom` equals the candidate's key is merged in place, otherwise a new
row is created and appended; `none` when the written row violates NOT NULL.
In the source the IntegrityError surfaces when that row is flushed — at the
next candidate's query (autoflush) or at commit for the last one — but every
such raise is caught by the same handler and rolls the entire transaction
back, so checking the written row at its own step is observationally
equivalent and keeps the loop structure simple. -/
def chkStep : List Pharmacie → PharmaData → Nat → Option (List Pharmacie)
  | [], d, now => (chkCreate d now).map (fun q => [q])
  | p :: ps, d, now =>
    if p.nom == nomKey d then (chkMerge p d now).map (fun p2 => p2 :: ps)
    else (chkStep ps d now).map (fun ps2 => p :: ps2)

/-- The loop of `save_pharmacies_to_db` with its exception behaviour made
explicit.  `i` is the index of the current candidate.  Three raise sources:
`dbFail = some k` injects an unexpected external exception (e.g. a lost
database connection) at step `k`; a candidate dict without a `nom` key raises
`KeyError` at the `pharma_data[\x27nom\x27]` access; and a written row violating a
NOT NULL column raises IntegrityError at its flush (see `chkStep`).  On
success it returns the final working set together with `saved_count`. -/
def saveLoop (now : Nat) (dbFail : Option Nat) :
    Nat → List Pharmacie → List PharmaData → Except Unit (List Pharmacie × Nat)
  | _, w, [] => .ok (w, 0)
  | i, w, d :: ds =>
    if dbFail == some i then .error ()
    else
      match d.nom with
      | none => .error ()
      | some _ =>
        match chkStep w d now with
        | none => .error ()
        | some w2 =>
          match saveLoop now dbFail (i + 1) w2 ds with
          | .ok (w3, c) => .ok (w3, c + 1)
          | .error e => .error e

/-- `save_pharmacies_to_db` (scraper.py lines 283-321).  The first component of
the result is the persisted store after the call, the second is the returned
count.  A successful run commits the working set; any exception in the loop,
or a failing commit (`commitOk = false`, an external commit failure — NOT NULL
violations of written rows have already surfaced as flush errors inside the
loop, the last row's commit-time flush being modelled at its own step), is
caught, the transaction is rolled back (the persisted store keeps its pre-run
state) and `saved_count` is reset to 0. -/
def save_pharmacies_to_db (store : List Pharmacie) (pharmacies : List PharmaData)
    (now : Nat) (dbFail : Option Nat) (commitOk : Bool) : List Pharmacie × Nat :=
  match saveLoop now dbFail 0 store pharmacies with
  | .error _ => (store, 0)
  | .ok (w, c) => if commitOk then (w, c) else (store, 0)

/-! ## Orchestrator (`run_full_scraping`, scraper.py lines 323-362) -/

/-- The summary dict returned by `run_full_scraping`: on the success path the
keys are `success=True`, `pharmacies_found`, `pharmacies_saved`,
`duration_seconds` and `message`; on the error path `success=False`, `error`
and `message`. -/
structure RunSummary where
  success : Bool
  pharmacies_found : Option Nat
  pharmacies_saved : Option Nat
  duration_seconds : Option Nat
  error : Option String
  message : String
deriving DecidableEq, Repr

/-- `run_full_scraping`: the collection step (network-dependent) is the oracle
`collected`, an exception raised inside `scrape_pharmacies_abidjan` surfacing as
`.error msg`; `duration` is the measured wall-clock time.  The only statement in
the `try` block that can raise is the collection itself — `save_pharmacies_to_db`
catches all of its own exceptions and returns a count — so the `except` branch
is reachable only from a failing collection.  Returns the summary together with
the persisted store after the run. -/
def run_full_scraping (store : List Pharmacie) (collected : Except String (List PharmaData))
    (now : Nat) (dbFail : Option Nat) (commitOk : Bool) (duration : Nat) :
    RunSummary × List Pharmacie :=
  match collected with
  | .error e =>
    ({ success := false
       pharmacies_found := none
       pharmacies_saved := none
       duration_seconds := none
       error := some e
       message := "Erreur lors du scraping" }, store)
  | .ok pharmacies =>
    let saved := save_pharmacies_to_db store pharmacies now dbFail commitOk
    ({ success := true
       pharmacies_found := some pharmacies.length
       pharmacies_saved := some saved.2
       duration_seconds := some duration
       error := none
       message := "Scraping terminé avec succès. " ++ toString saved.2 ++
         " pharmacies sauvegardées." }, saved.1)

/-! ## Geocoder adapter (`_geocode_address`, scraper.py lines 61-85) -/

/-- Failure modes of the external `geolocator.geocode` call: the two geopy
exception classes caught by name, plus the catch-all `except Exception`. -/
inductive GeoExc where
  | timedOut
  | unavailable
  | other
deriving DecidableEq, Repr

/-- Result of one lookup of the external geocoding service: either it raises or
it returns an optional location. -/
structure GeoLocation where
  latitude : Rat
  longitude : Rat
deriving DecidableEq, Repr

/-- `_geocode_address`: the fixed city/country suffix is appended to the input
address before the lookup; a truthy location yields its coordinate pair, a null
result yields `None`, both caught exception classes and the catch-all degrade to
`None`.  `g` is the oracle for the external service. -/
def geocode_address (g : String → Except GeoExc (Option GeoLocation)) (address : String) :
    Option (Rat × Rat) :=
  let full_address := address ++ ", Abidjan, Côte d\x27Ivoire"
  match g full_address with
  | .ok (some location) => some (location.latitude, location.longitude)
  | .ok none => none
  | .error .timedOut => none
  | .error .unavailable => none
  | .error .other => none

/-! ## Phone field extractor (`_extract_phone`, scraper.py lines 87-108)

The three Python regexes use only literal characters, `\d`, and greedy `\s?`;
they are embedded as token lists and matched with the backtracking semantics of
`re.search` (leftmost match position, greedy optional whitespace with
backtracking at each position). -/

/-- One token of the phone patterns: a literal character, `\d`, or `\s?`. -/
inductive PatTok where
  | lit (c : Char)
  | digit
  | optWs
deriving DecidableEq, Repr

/-- Python's `\s` on the ASCII range. -/
def isPySpace (c : Char) : Bool :=
  c == ' ' || c == '\t' || c == '\n' || c == '\r' || c == '\x0b' || c == '\x0c'

/-- Match a token list against the start of the text, returning the consumed
characters of the first (greedy, backtracking) match, as the regex engine does
when anchored at one search position. -/
def matchToks : List PatTok → List Char → Option (List Char)
  | [], _ => some []
  | .lit c :: ts, s =>
    match s with
    | [] => none
    | x :: xs => if x == c then (matchToks ts xs).map (fun m => x :: m) else none
  | .digit :: ts, s =>
    match s with
    | [] => none
    | x :: xs => if x.isDigit then (matchToks ts xs).map (fun m => x :: m) else none
  | .optWs :: ts, s =>
    match s with
    | [] => matchToks ts []
    | x :: xs =>
      if isPySpace x then
        match matchToks ts xs with
        | some m => some (x :: m)
        | none => matchToks ts (x :: xs)
      else matchToks ts (x :: xs)

/-- `re.search`: try the pattern at each successive start position, returning
the leftmost match. -/
def searchToks (ts : List PatTok) : List Char → Option (List Char)
  | [] => matchToks ts []
  | x :: xs =>
    match matchToks ts (x :: xs) with
    | some m => some m
    | none => searchToks ts xs

/-- `r'(\+225\s?\d{2}\s?\d{3}\s?\d{3})'` — international-prefixed. -/
def phonePattern1 : List PatTok :=
  [.lit '+', .lit '2', .lit '2', .lit '5', .optWs, .digit, .digit,
   .optWs, .digit, .digit, .digit, .optWs, .digit, .digit, .digit]

/-- `r'(225\s?\d{2}\s?\d{3}\s?\d{3})'` — country-code-prefixed. -/
def phonePattern2 : List PatTok :=
  [.lit '2', .lit '2', .lit '5', .optWs, .digit, .digit,
   .optWs, .digit, .digit, .digit, .optWs, .digit, .digit, .digit]

/-- `r'(\d{2}\s?\d{3}\s?\d{3})'` — local. -/
def phonePattern3 : List PatTok :=
  [.digit, .digit, .optWs, .digit, .digit, .digit, .optWs, .digit, .digit, .digit]

/-- The ordered pattern list of `_extract_phone`. -/
def phonePatterns : List (List PatTok) := [phonePattern1, phonePattern2, phonePattern3]

/-- The `for pattern in patterns:` loop: first matching pattern wins. -/
def tryPatterns : List (List PatTok) → List Char → Option (List Char)
  | [], _ => none
  | p :: ps, s =>
    match searchToks p s with
    | some m => some m
    | none => tryPatterns ps s

/-- `_extract_phone`: search the three patterns in order and strip the space
characters of the match (`.replace(\x27 \x27, \x27\x27)` removes exactly `U+0020`). -/
def extract_phone (text : String) : Option String :=
  (tryPatterns phonePatterns text.toList).map
    (fun m => String.mk (m.filter (fun c => !(c == ' '))))

/-! ## Record source providers (scraper.py lines 124-281) -/

/-- `data[\x27adresse\x27]` as read by the providers' geocoding enrichment (the key is
present on every hardcoded sample record). -/
def addrOf (d : PharmaData) : String := (d.adresse.join).getD ""

/-- The per-record enrichment done inside each provider: geocode the record's
address and, when coordinates come back, store them on the record.  `geo` stands
for `self._geocode_address`. -/
def enrichGeo (geo : String → Option (Rat × Rat)) (d : PharmaData) : PharmaData :=
  match geo (addrOf d) with
  | some c => { d with latitude := some (some c.1), longitude := some (some c.2) }
  | none => d

/-- The provider loop inside the `try` block of `_scrape_pharmacies_garde` /
`_scrape_annuaire_pharmacies`: records are enriched and appended one at a time;
`failAt = some k` injects an exception while item `k` is being processed, at
which point the `except` handler catches it and the records accumulated so far
are returned. -/
def scrapeLoop (geo : String → Option (Rat × Rat)) :
    Option Nat → Nat → List PharmaData → List PharmaData
  | _, _, [] => []
  | failAt, i, d :: ds =>
    if failAt == some i then []
    else enrichGeo geo d :: scrapeLoop geo failAt (i + 1) ds

/-- The hardcoded sample records of `_scrape_pharmacies_garde`. -/
def garde_sample_data : List PharmaData :=
  [{ nom := some (some "Pharmacie de Garde Cocody")
     adresse := some (some "Cocody, Abidjan, Côte d\x27Ivoire")
     telephone := some (some "+225 27 22 12 34")
     email := some (some "garde.cocody@pharma.ci") },
   { nom := some (some "Pharmacie de Garde Plateau")
     adresse := some (some "Plateau, Abidjan, Côte d\x27Ivoire")
     telephone := some (some "+225 27 22 56 78")
     email := some (some "garde.plateau@pharma.ci") }]

/-- The hardcoded sample records of `_scrape_annuaire_pharmacies`; note the
third record carries the key `email` explicitly mapped to `None`. -/
def annuaire_sample_data : List PharmaData :=
  [{ nom := some (some "Pharmacie Centrale")
     adresse := some (some "Boulevard Roume, Plateau, Abidjan")
     telephone := some (some "+225 27 22 90 12")
     email := some (some "contact@pharmacie-centrale.ci") },
   { nom := some (some "Pharmacie Saint-Jean")
     adresse := some (some "Rue des Jardins, Cocody, Abidjan")
     telephone := some (some "+225 27 22 34 56")
     email := some (some "info@pharmacie-saintjean.ci") },
   { nom := some (some "Pharmacie du Marché")
     adresse := some (some "Marché de Treichville, Abidjan")
     telephone := some (some "+225 27 22 78 90")
     email := some none }]

/-- The hardcoded records of `_get_pharmacies_populaires`. -/
def populaires_data : List PharmaData :=
  [{ nom := some (some "Pharmacie de l\x27Aéroport")
     adresse := some (some "Aéroport Félix Houphouët-Boigny, Abidjan")
     telephone := some (some "+225 27 22 11 22")
     email := some (some "aeroport@pharma.ci")
     horaires := some (some "24h/24") },
   { nom := some (some "Pharmacie de l\x27Université")
     adresse := some (some "Université Félix Houphouët-Boigny, Cocody, Abidjan")
     telephone := some (some "+225 27 22 33 44")
     email := some (some "universite@pharma.ci")
     horaires := some (some "8h-18h") },
   { nom := some (some "Pharmacie du Port")
     adresse := some (some "Port Autonome d\x27Abidjan")
     telephone := some (some "+225 27 22 55 66")
     email := some (some "port@pharma.ci")
     horaires := some (some "7h-19h") }]

/-- `_scrape_pharmacies_garde` (scraper.py lines 154-196). -/
def scrape_pharmacies_garde (geo : String → Option (Rat × Rat)) (failAt : Option Nat) :
    List PharmaData :=
  scrapeLoop geo failAt 0 garde_sample_data

/-- `_scrape_annuaire_pharmacies` (scraper.py lines 198-242). -/
def scrape_annuaire_pharmacies (geo : String → Option (Rat × Rat)) (failAt : Option Nat) :
    List PharmaData :=
  scrapeLoop geo failAt 0 annuaire_sample_data

/-- `_get_pharmacies_populaires` (scraper.py lines 244-281): no `try` block, but
also no statement that can raise (geocoding never raises). -/
def get_pharmacies_populaires (geo : String → Option (Rat × Rat)) : List PharmaData :=
  populaires_data.map (enrichGeo geo)

/-- `scrape_pharmacies_abidjan` (scraper.py lines 124-152): the three providers
are invoked in order and their outputs concatenated. -/
def scrape_pharmacies_abidjan (geo : String → Option (Rat × Rat))
    (failGarde failAnnuaire : Option Nat) : List PharmaData :=
  scrape_pharmacies_garde geo failGarde ++
    (scrape_annuaire_pharmacies geo failAnnuaire ++ get_pharmacies_populaires geo)

/-! ## Specification-side notions used by the theorems -/

/-- Apply a sequence of candidate dicts to one row by repeated
`update_from_dict` (the merges a row receives from the same-name candidates of
a batch, in batch order). -/
def mergeSeq (cs : List PharmaData) (now : Nat) (p : Pharmacie) : Pharmacie :=
  cs.foldl (fun q d => q.update_from_dict d now) p

/-- Forget the `date_maj` column (refreshed on every reconciliation update), to
compare rows up to their last-modification timestamp. -/
def stripMaj (p : Pharmacie) : Pharmacie := { p with date_maj := 0 }

/-- The value written by the last candidate of `cs` that carries the key read
by `wr`, if any ("last writer wins"). -/
def lastWr {α : Type} (wr : PharmaData → Option α) : List PharmaData → Option α
  | [] => none
  | d :: ds =>
    match lastWr wr ds with
    | some v => some v
    | none => wr d

/-- A column of the `Pharmacie` row together with the candidate-dict key that
`update_from_dict` copies into it: `get` reads the column, `wr` reads the dict
key (`none` when the key is absent), and `upd_eq` states the overwrite-if-present
behaviour of `update_from_dict` for this column. -/
structure FieldView (α : Type) where
  get : Pharmacie → α
  wr : PharmaData → Option α
  upd_eq : ∀ p d now, get (p.update_from_dict d now) = (wr d).getD (get p)

def fvNom : FieldView (Option String) where
  get := Pharmacie.nom
  wr := PharmaData.nom
  upd_eq := by intro p d now; cases hd : d.nom <;> simp [Pharmacie.update_from_dict, hd]

def fvAdresse : FieldView (Option String) where
  get := Pharmacie.adresse
  wr := PharmaData.adresse
  upd_eq := by intro p d now; cases hd : d.adresse <;> simp [Pharmacie.update_from_dict, hd]

def fvLatitude : FieldView (Option Rat) where
  get := Pharmacie.latitude
  wr := PharmaData.latitude
  upd_eq := by intro p d now; cases hd : d.latitude <;> simp [Pharmacie.update_from_dict, hd]

def fvLongitude : FieldView (Option Rat) where
  get := Pharmacie.longitude
  wr := PharmaData.longitude
  upd_eq := by intro p d now; cases hd : d.longitude <;> simp [Pharmacie.update_from_dict, hd]

def fvTelephone : FieldView (Option String) where
  get := Pharmacie.telephone
  wr := PharmaData.telephone
  upd_eq := by intro p d now; cases hd : d.telephone <;> simp [Pharmacie.update_from_dict, hd]

def fvEmail : FieldView (Option String) where
  get := Pharmacie.email
  wr := PharmaData.email
  upd_eq := by intro p d now; cases hd : d.email <;> simp [Pharmacie.update_from_dict, hd]

def fvHoraires : FieldView (Option String) where
  get := Pharmacie.horaires
  wr := PharmaData.horaires
  upd_eq := by intro p d now; cases hd : d.horaires <;> simp [Pharmacie.update_from_dict, hd]

/-- `date_creation` is a column no candidate dict ever writes. -/
def fvDateCreation : FieldView Nat where
  get := Pharmacie.date_creation
  wr := fun _ => none
  upd_eq := by intro p d now; rfl

/-- A row already carries, up to `date_maj`, the outcome of merging the
candidate sequence `cs` into it: re-applying the whole sequence changes nothing
but the timestamp. -/
def Saturated (cs : List PharmaData) (p : Pharmacie) : Prop :=
  ∀ now, stripMaj (mergeSeq cs now p) = stripMaj p

/-- Positional invariant tying a batch to a working set: each row in turn is
saturated for the candidates whose `nom` key selects it (it is the first row
with its `nom`, so exactly those candidates hit it), and the rest of the batch
relates likewise to the rows behind it; a batch candidate matching no row at
all would create a new row, so at the end of the list the leftover batch must
be empty. -/
def ReconInv : List PharmaData → List Pharmacie → Prop
  | batch, [] => batch = []
  | batch, p :: w =>
    Saturated (batch.filter (fun d => p.nom == nomKey d)) p ∧
      ReconInv (batch.filter (fun d => !(p.nom == nomKey d))) w

/-- The checked merge fold on a single row: the per-name view of the checked
loop, failing as soon as one written row image violates NOT NULL. -/
def chkMergeSeq : List PharmaData → Nat → Pharmacie → Option Pharmacie
  | [], _, p => some p
  | d :: ds, now, p =>
    match chkMerge p d now with
    | some p2 => chkMergeSeq ds now p2
    | none => none

/-- The checked reconciliation loop stripped of counters and injected external
failures: `none` exactly when some step's written row violates NOT NULL. -/
def chkRun : List PharmaData → Nat → List Pharmacie → Option (List Pharmacie)
  | [], _, w => some w
  | d :: ds, now, w =>
    match chkStep w d now with
    | some w2 => chkRun ds now w2
    | none => none

/-- A candidate whose written values cannot by themselves violate NOT NULL
when it updates an already-valid row: its `nom` key carries a non-null value
and its `adresse` key, when present, carries a non-null value.  Every
candidate of a batch whose checked run succeeded satisfies this. -/
def candOk (d : PharmaData) : Bool :=
  (nomKey d).isSome &&
    (match d.adresse with
     | some v => v.isSome
     | none => true)

/-- Positional invariant: every row selected by one of the batch's name-groups
is a valid row (a successful first pass wrote and therefore flush-checked it),
and the leftover batch at the end of the list is empty. -/
def ValidInv : List PharmaData → List Pharmacie → Prop
  | batch, [] => batch = []
  | batch, p :: w =>
    (batch.filter (fun d => p.nom == nomKey d) ≠ [] → p.validRow = true) ∧
      ValidInv (batch.filter (fun d => !(p.nom == nomKey d))) w

/-- Forget both timestamp columns, to compare rows up to dates.  The loop's
control flow (name matching and NOT NULL checks) never reads a date, so runs
of the same batch at different clock values simulate each other through this
projection. -/
def stripDates (p : Pharmacie) : Pharmacie := { p with date_creation := 0, date_maj := 0 }

/-! # Theorems -/

/-! ## Generic helper lemmas -/

theorem getD_getD {α : Type} (o : Option α) (x : α) : o.getD (o.getD x) = o.getD x := by
  cases o <;> rfl

theorem join_eq_getD {α : Type} (o : Option (Option α)) : o.join = o.getD none := by
  cases o <;> rfl

theorem mergeSeq_nil (now : Nat) (p : Pharmacie) : mergeSeq [] now p = p := rfl

theorem mergeSeq_cons (c : PharmaData) (cs : List PharmaData) (now : Nat) (p : Pharmacie) :
    mergeSeq (c :: cs) now p = mergeSeq cs now (p.update_from_dict c now) := rfl

theorem lastWr_cons {α : Type} (wr : PharmaData → Option α) (d : PharmaData)
    (cs : List PharmaData) :
    lastWr wr (d :: cs) = match lastWr wr cs with | some v => some v | none => wr d := rfl

/-- A value produced by `lastWr` was written by some member of the list. -/
theorem lastWr_mem {α : Type} (wr : PharmaData → Option α) (cs : List PharmaData) (v : α)
    (h : lastWr wr cs = some v) : ∃ d ∈ cs, wr d = some v := by
  induction cs with
  | nil => cases h
  | cons c cs ih =>
    rw [lastWr_cons] at h
    cases hl : lastWr wr cs with
    | none => rw [hl] at h; exact ⟨c, List.mem_cons_self c cs, h⟩
    | some x =>
      rw [hl] at h
      injection h with h
      subst h
      obtain ⟨d, hd, hw⟩ := ih hl
      exact ⟨d, List.mem_cons_of_mem c hd, hw⟩

/-- Closed form for one column of a merge sequence: the last writer wins, and
an unwritten column keeps the row's value. -/
theorem FieldView.mergeSeq_eq {α : Type} (F : FieldView α) (cs : List PharmaData)
    (now : Nat) (p : Pharmacie) :
    F.get (mergeSeq cs now p) = (lastWr F.wr cs).getD (F.get p) := by
  induction cs generalizing p with
  | nil => rfl
  | cons c cs ih =>
    rw [mergeSeq_cons, ih, F.upd_eq, lastWr_cons]
    cases hl : lastWr F.wr cs
    · simp
    · simp

theorem mergeSeq_nom (cs : List PharmaData) (now : Nat) (p : Pharmacie) :
    (mergeSeq cs now p).nom = (lastWr PharmaData.nom cs).getD p.nom :=
  fvNom.mergeSeq_eq cs now p

theorem mergeSeq_adresse (cs : List PharmaData) (now : Nat) (p : Pharmacie) :
    (mergeSeq cs now p).adresse = (lastWr PharmaData.adresse cs).getD p.adresse :=
  fvAdresse.mergeSeq_eq cs now p

theorem mergeSeq_latitude (cs : List PharmaData) (now : Nat) (p : Pharmacie) :
    (mergeSeq cs now p).latitude = (lastWr PharmaData.latitude cs).getD p.latitude :=
  fvLatitude.mergeSeq_eq cs now p

theorem mergeSeq_longitude (cs : List PharmaData) (now : Nat) (p : Pharmacie) :
    (mergeSeq cs now p).longitude = (lastWr PharmaData.longitude cs).getD p.longitude :=
  fvLongitude.mergeSeq_eq cs now p

theorem mergeSeq_telephone (cs : List PharmaData) (now : Nat) (p : Pharmacie) :
    (mergeSeq cs now p).telephone = (lastWr PharmaData.telephone cs).getD p.telephone :=
  fvTelephone.mergeSeq_eq cs now p

theorem mergeSeq_email (cs : List PharmaData) (now : Nat) (p : Pharmacie) :
    (mergeSeq cs now p).email = (lastWr PharmaData.email cs).getD p.email :=
  fvEmail.mergeSeq_eq cs now p

theorem mergeSeq_horaires (cs : List PharmaData) (now : Nat) (p : Pharmacie) :
    (mergeSeq cs now p).horaires = (lastWr PharmaData.horaires cs).getD p.horaires :=
  fvHoraires.mergeSeq_eq cs now p

theorem mergeSeq_date_creation (cs : List PharmaData) (now : Nat) (p : Pharmacie) :
    (mergeSeq cs now p).date_creation = p.date_creation := by
  induction cs generalizing p with
  | nil => rfl
  | cons c cs ih => rw [mergeSeq_cons, ih]; rfl

theorem create_nom (d : PharmaData) (now : Nat) :
    (Pharmacie.create_from_dict d now).nom = d.nom.getD none := join_eq_getD d.nom

theorem create_adresse (d : PharmaData) (now : Nat) :
    (Pharmacie.create_from_dict d now).adresse = d.adresse.getD none := join_eq_getD d.adresse

theorem create_latitude (d : PharmaData) (now : Nat) :
    (Pharmacie.create_from_dict d now).latitude = d.latitude.getD none := join_eq_getD d.latitude

theorem create_longitude (d : PharmaData) (now : Nat) :
    (Pharmacie.create_from_dict d now).longitude = d.longitude.getD none :=
  join_eq_getD d.longitude

theorem create_telephone (d : PharmaData) (now : Nat) :
    (Pharmacie.create_from_dict d now).telephone = d.telephone.getD none :=
  join_eq_getD d.telephone

theorem create_email (d : PharmaData) (now : Nat) :
    (Pharmacie.create_from_dict d now).email = d.email.getD none := join_eq_getD d.email

theorem create_horaires (d : PharmaData) (now : Nat) :
    (Pharmacie.create_from_dict d now).horaires = d.horaires.getD none := join_eq_getD d.horaires

/-- Two rows agreeing on every column except possibly `date_maj` are equal
after `stripMaj`. -/
theorem stripMaj_eq_of_fields {p q : Pharmacie}
    (h1 : q.nom = p.nom) (h2 : q.adresse = p.adresse) (h3 : q.latitude = p.latitude)
    (h4 : q.longitude = p.longitude) (h5 : q.telephone = p.telephone)
    (h6 : q.email = p.email) (h7 : q.horaires = p.horaires)
    (h8 : q.date_creation = p.date_creation) : stripMaj q = stripMaj p := by
  cases p
  cases q
  simp_all [stripMaj]

/-- Nested `getD` collapse used for the pattern `d :: cs` re-applied on top of
`create_from_dict d` followed by `cs`. -/
theorem lastWr_cons_getD {α : Type} (wr : PharmaData → Option α) (d : PharmaData)
    (cs : List PharmaData) (x : α) :
    (lastWr wr (d :: cs)).getD ((lastWr wr cs).getD ((wr d).getD x)) =
      (lastWr wr cs).getD ((wr d).getD x) := by
  rw [lastWr_cons]
  cases lastWr wr cs
  · simp [getD_getD]
  · simp

/-- Re-applying a merge sequence to its own output changes nothing but the
timestamp. -/
theorem saturated_mergeSeq_self (cs : List PharmaData) (now : Nat) (p : Pharmacie) :
    Saturated cs (mergeSeq cs now p) := by
  intro now2
  apply stripMaj_eq_of_fields <;>
    simp only [mergeSeq_nom, mergeSeq_adresse, mergeSeq_latitude, mergeSeq_longitude,
      mergeSeq_telephone, mergeSeq_email, mergeSeq_horaires, mergeSeq_date_creation, getD_getD]

/-- A row created from candidate `d` and then merged with the later same-name
candidates `cs` is saturated for the whole sequence `d :: cs`. -/
theorem saturated_mergeSeq_create (d : PharmaData) (cs : List PharmaData) (now : Nat) :
    Saturated (d :: cs) (mergeSeq cs now (Pharmacie.create_from_dict d now)) := by
  intro now2
  apply stripMaj_eq_of_fields <;>
    simp only [mergeSeq_nom, mergeSeq_adresse, mergeSeq_latitude, mergeSeq_longitude,
      mergeSeq_telephone, mergeSeq_email, mergeSeq_horaires, mergeSeq_date_creation,
      create_nom, create_adresse, create_latitude, create_longitude, create_telephone,
      create_email, create_horaires, lastWr_cons_getD]

/-! ## Structure of the reconciliation loop -/

theorem fullRun_nil (now : Nat) (w : List Pharmacie) : fullRun [] now w = w := rfl

theorem fullRun_cons (d : PharmaData) (bs : List PharmaData) (now : Nat) (w : List Pharmacie) :
    fullRun (d :: bs) now w = fullRun bs now (reconcileOne w d now) := rfl

/-- Updating a row that matched the lookup key leaves its `nom` unchanged (the
candidate either does not carry the key, or carries exactly the matched value). -/
theorem update_nom_of_match (p : Pharmacie) (d : PharmaData) (now : Nat)
    (h : p.nom = nomKey d) : (p.update_from_dict d now).nom = p.nom := by
  cases hd : d.nom with
  | none => simp [Pharmacie.update_from_dict, hd]
  | some v =>
    have hv : nomKey d = v := by simp [nomKey, hd, Option.join]
    simp [Pharmacie.update_from_dict, hd, h, hv]

theorem reconcileOne_cons_pos (p : Pharmacie) (w : List Pharmacie) (d : PharmaData)
    (now : Nat) (h : (p.nom == nomKey d) = true) :
    reconcileOne (p :: w) d now = p.update_from_dict d now :: w := by
  simp [reconcileOne, List.any_cons, h, updateFirst]

theorem reconcileOne_cons_neg (p : Pharmacie) (w : List Pharmacie) (d : PharmaData)
    (now : Nat) (h : (p.nom == nomKey d) = false) :
    reconcileOne (p :: w) d now = p :: reconcileOne w d now := by
  cases hw : w.any (fun q => q.nom == nomKey d)
  · simp [reconcileOne, List.any_cons, h, hw, updateFirst]
  · simp [reconcileOne, List.any_cons, h, hw, updateFirst]

/-- Decomposition of the loop at the head of the working set: the candidates
whose key selects the head row are exactly those merged into it (it is the
first row with that `nom` throughout), and the rest of the batch runs
independently on the tail. -/
theorem fullRun_cons_split (batch : List PharmaData) (now : Nat) (p : Pharmacie)
    (w : List Pharmacie) :
    fullRun batch now (p :: w) =
      mergeSeq (batch.filter (fun d => p.nom == nomKey d)) now p ::
        fullRun (batch.filter (fun d => !(p.nom == nomKey d))) now w := by
  induction batch generalizing p w with
  | nil => rfl
  | cons d bs ih =>
    cases h : (p.nom == nomKey d) with
    | true =>
      rw [fullRun_cons, reconcileOne_cons_pos p w d now h,
        ih (p.update_from_dict d now) w]
      have hn : (p.update_from_dict d now).nom = p.nom :=
        update_nom_of_match p d now (eq_of_beq h)
      simp only [hn, List.filter_cons, h, Bool.not_true, if_pos, mergeSeq_cons]
      rfl
    | false =>
      rw [fullRun_cons, reconcileOne_cons_neg p w d now h, ih p (reconcileOne w d now)]
      simp only [List.filter_cons, h, Bool.not_false, if_neg, fullRun_cons]
      rfl

/-- A merge by candidates that all carry the row's own key value leaves the
`nom` column unchanged. -/
theorem mergeSeq_nom_const (cs : List PharmaData) (now : Nat) (p : Pharmacie)
    (h : ∀ d ∈ cs, nomKey d = p.nom) : (mergeSeq cs now p).nom = p.nom := by
  rw [mergeSeq_nom]
  cases hl : lastWr PharmaData.nom cs with
  | none => rfl
  | some v =>
    obtain ⟨d, hd, hw⟩ := lastWr_mem PharmaData.nom cs v hl
    have hk := h d hd
    rw [nomKey, hw] at hk
    simp [Option.join] at hk
    simp [hk]

/-- The members of the head filter of `ReconInv` carry the head row's key. -/
theorem nomKey_of_mem_filter (batch : List PharmaData) (n : Option String)
    (d : PharmaData) (hd : d ∈ batch.filter (fun d => n == nomKey d)) : nomKey d = n := by
  have := List.of_mem_filter hd
  exact (eq_of_beq this).symm

/-- A working set satisfying `ReconInv` for a batch absorbs a re-run of that
batch up to `date_maj`. -/
theorem map_stripMaj_fullRun_of_inv (u : List Pharmacie) :
    ∀ (batch : List PharmaData) (now : Nat), ReconInv batch u →
      (fullRun batch now u).map stripMaj = u.map stripMaj := by
  induction u with
  | nil =>
    intro batch now h
    have hb : batch = [] := h
    subst hb
    rfl
  | cons p w ih =>
    intro batch now h
    obtain ⟨h1, h2⟩ := h
    rw [fullRun_cons_split]
    simp only [List.map_cons]
    rw [h1 now, ih _ now h2]

/-- `ReconInv` holds between a batch and the output of running that batch on
the empty working set (induction on the batch length: the head candidate
creates the row that the rest of its name-group saturates). -/
theorem inv_fullRun_nil_aux (now : Nat) :
    ∀ (n : Nat) (batch : List PharmaData), batch.length ≤ n →
      ReconInv batch (fullRun batch now []) := by
  intro n
  induction n with
  | zero =>
    intro batch h
    have hb : batch = [] := List.length_eq_zero.mp (Nat.le_zero.mp h)
    subst hb
    rfl
  | succ n ih =>
    intro batch h
    cases batch with
    | nil => rfl
    | cons d bs =>
      rw [fullRun_cons]
      have hrec : reconcileOne [] d now = [Pharmacie.create_from_dict d now] := rfl
      rw [hrec, fullRun_cons_split]
      have hcn : (Pharmacie.create_from_dict d now).nom = nomKey d := rfl
      simp only [hcn]
      have hmn : (mergeSeq (List.filter (fun d2 => nomKey d == nomKey d2) bs) now
            (Pharmacie.create_from_dict d now)).nom = nomKey d := by
        rw [mergeSeq_nom_const]
        · exact hcn
        · intro d2 hd2
          rw [nomKey_of_mem_filter bs (nomKey d) d2 hd2, hcn]
      have hfilter1 : List.filter (fun d2 => nomKey d == nomKey d2) (d :: bs) =
          d :: List.filter (fun d2 => nomKey d == nomKey d2) bs := by
        rw [List.filter_cons]
        simp
      have hfilter2 : List.filter (fun d2 => !(nomKey d == nomKey d2)) (d :: bs) =
          List.filter (fun d2 => !(nomKey d == nomKey d2)) bs := by
        rw [List.filter_cons]
        simp
      refine ⟨?_, ?_⟩
      · simp only [hmn]
        rw [hfilter1]
        exact saturated_mergeSeq_create d
          (List.filter (fun d2 => nomKey d == nomKey d2) bs) now
      · simp only [hmn]
        rw [hfilter2]
        have hlen : (List.filter (fun d2 => !(nomKey d == nomKey d2)) bs).length ≤ n := by
          have h1 := List.length_filter_le (fun d2 => !(nomKey d == nomKey d2)) bs
          have h2 : bs.length ≤ n := Nat.le_of_succ_le_succ h
          omega
        exact ih (List.filter (fun d2 => !(nomKey d == nomKey d2)) bs) hlen

theorem inv_fullRun_nil (batch : List PharmaData) (now : Nat) :
    ReconInv batch (fullRun batch now []) :=
  inv_fullRun_nil_aux now batch.length batch le_rfl

/-- `ReconInv` holds between any batch and the working set produced by running
it: the first pass leaves every row saturated for its own name-group. -/
theorem inv_fullRun (store : List Pharmacie) :
    ∀ (batch : List PharmaData) (now : Nat), ReconInv batch (fullRun batch now store) := by
  induction store with
  | nil => intro batch now; exact inv_fullRun_nil batch now
  | cons p w ih =>
    intro batch now
    rw [fullRun_cons_split]
    have hmn : (mergeSeq (List.filter (fun d => p.nom == nomKey d) batch) now p).nom = p.nom := by
      apply mergeSeq_nom_const
      intro d hd
      exact nomKey_of_mem_filter batch p.nom d hd
    refine ⟨?_, ?_⟩
    · simp only [hmn]
      exact saturated_mergeSeq_self (List.filter (fun d => p.nom == nomKey d) batch) now p
    · simp only [hmn]
      exact ih (List.filter (fun d => !(p.nom == nomKey d)) batch) now

/-! ## The save loop and its exception behaviour -/

theorem chkMerge_some {p : Pharmacie} {d : PharmaData} {now : Nat} {p2 : Pharmacie}
    (h : chkMerge p d now = some p2) :
    p2 = p.update_from_dict d now ∧ p2.validRow = true := by
  unfold chkMerge at h
  cases hv : (p.update_from_dict d now).validRow
  · rw [if_neg (by simp [hv])] at h
    cases h
  · rw [if_pos (by simp [hv])] at h
    injection h with h
    exact ⟨h.symm, h ▸ hv⟩

theorem chkCreate_some {d : PharmaData} {now : Nat} {q : Pharmacie}
    (h : chkCreate d now = some q) :
    q = Pharmacie.create_from_dict d now ∧ q.validRow = true := by
  unfold chkCreate at h
  cases hv : (Pharmacie.create_from_dict d now).validRow
  · rw [if_neg (by simp [hv])] at h
    cases h
  · rw [if_pos (by simp [hv])] at h
    injection h with h
    exact ⟨h.symm, h ▸ hv⟩

theorem chkStep_nil (d : PharmaData) (now : Nat) :
    chkStep [] d now = (chkCreate d now).map (fun q => [q]) := rfl

theorem chkStep_cons (p : Pharmacie) (ps : List Pharmacie) (d : PharmaData) (now : Nat) :
    chkStep (p :: ps) d now =
      if p.nom == nomKey d then (chkMerge p d now).map (fun p2 => p2 :: ps)
      else (chkStep ps d now).map (fun ps2 => p :: ps2) := rfl

/-- A successful checked step computes exactly the unchecked session mutation. -/
theorem chkStep_some_eq : ∀ (w : List Pharmacie) (d : PharmaData) (now : Nat)
    (w2 : List Pharmacie), chkStep w d now = some w2 → w2 = reconcileOne w d now := by
  intro w
  induction w with
  | nil =>
    intro d now w2 h
    rw [chkStep_nil] at h
    cases hc : chkCreate d now with
    | none => rw [hc] at h; cases h
    | some q =>
      rw [hc] at h
      injection h with h
      obtain ⟨hq, _⟩ := chkCreate_some hc
      rw [← h, hq]
      rfl
  | cons p ps ih =>
    intro d now w2 h
    rw [chkStep_cons] at h
    cases hcond : (p.nom == nomKey d : Bool)
    · rw [if_neg (by simp [hcond])] at h
      cases hs : chkStep ps d now with
      | none => rw [hs] at h; cases h
      | some ps2 =>
        rw [hs] at h
        injection h with h
        rw [← h, ih d now ps2 hs, reconcileOne_cons_neg p ps d now hcond]
    · rw [if_pos (by simp [hcond])] at h
      cases hm : chkMerge p d now with
      | none => rw [hm] at h; cases h
      | some p2 =>
        rw [hm] at h
        injection h with h
        obtain ⟨hp2, _⟩ := chkMerge_some hm
        rw [← h, hp2, reconcileOne_cons_pos p ps d now hcond]

theorem chkRun_nil (now : Nat) (w : List Pharmacie) : chkRun [] now w = some w := rfl

theorem chkRun_cons (d : PharmaData) (ds : List PharmaData) (now : Nat)
    (w : List Pharmacie) :
    chkRun (d :: ds) now w =
      match chkStep w d now with
      | some w2 => chkRun ds now w2
      | none => none := rfl

/-- A successful checked run computes exactly the unchecked reconciliation
fold. -/
theorem chkRun_some_eq : ∀ (batch : List PharmaData) (now : Nat)
    (w u : List Pharmacie), chkRun batch now w = some u → u = fullRun batch now w := by
  intro batch
  induction batch with
  | nil =>
    intro now w u h
    injection h with h
    rw [← h]
    rfl
  | cons d ds ih =>
    intro now w u h
    rw [chkRun_cons] at h
    cases hs : chkStep w d now with
    | none => rw [hs] at h; cases h
    | some w2 =>
      rw [hs] at h
      rw [ih now w2 u h, chkStep_some_eq w d now w2 hs, fullRun_cons]

theorem saveLoop_cons (now : Nat) (dbFail : Option Nat) (i : Nat) (w : List Pharmacie)
    (d : PharmaData) (ds : List PharmaData) :
    saveLoop now dbFail i w (d :: ds) =
      if (dbFail == some i : Bool) then .error ()
      else
        match d.nom with
        | none => .error ()
        | some _ =>
          match chkStep w d now with
          | none => .error ()
          | some w2 =>
            match saveLoop now dbFail (i + 1) w2 ds with
            | .ok (w3, c) => .ok (w3, c + 1)
            | .error e => .error e := rfl

/-- Without injected external failures and with every candidate carrying its
`nom` key, the loop is the checked run together with the per-candidate
counter. -/
theorem saveLoop_eq_chkRun (now : Nat) :
    ∀ (batch : List PharmaData), (∀ d ∈ batch, d.nom.isSome) →
      ∀ (i : Nat) (w : List Pharmacie),
        saveLoop now none i w batch =
          match chkRun batch now w with
          | some w2 => .ok (w2, batch.length)
          | none => .error () := by
  intro batch
  induction batch with
  | nil => intro _ i w; rfl
  | cons d ds ih =>
    intro h i w
    obtain ⟨v, hv⟩ := Option.isSome_iff_exists.mp (h d (List.mem_cons_self d ds))
    rw [saveLoop_cons, if_neg (by simp), hv, chkRun_cons]
    cases hs : chkStep w d now with
    | none => rfl
    | some w2 =>
      show (match saveLoop now none (i + 1) w2 ds with
        | Except.ok (w3, c) => Except.ok (w3, c + 1)
        | Except.error e => Except.error e) =
        match chkRun ds now w2 with
        | some w3 => Except.ok (w3, (d :: ds).length)
        | none => Except.error ()
      rw [ih (fun d2 hd2 => h d2 (List.mem_cons_of_mem d hd2)) (i + 1) w2]
      cases hr : chkRun ds now w2 with
      | none => rfl
      | some u => rfl

/-- Whenever the loop completes without raising, the returned count is the
batch length (the counter is incremented once per candidate, in both the
create and the update branch). -/
theorem saveLoop_count (now : Nat) (dbFail : Option Nat) :
    ∀ (batch : List PharmaData) (i : Nat) (w w2 : List Pharmacie) (c : Nat),
      saveLoop now dbFail i w batch = .ok (w2, c) → c = batch.length := by
  intro batch
  induction batch with
  | nil =>
    intro i w w2 c h
    injection h with h
    injection h with _ h
    exact h.symm
  | cons d bs ih =>
    intro i w w2 c h
    rw [saveLoop_cons] at h
    cases hif : (dbFail == some i : Bool)
    · rw [if_neg (by simp [hif])] at h
      cases hd : d.nom with
      | none => rw [hd] at h; cases h
      | some v =>
        rw [hd] at h
        cases hs : chkStep w d now with
        | none => rw [hs] at h; cases h
        | some w3 =>
          rw [hs] at h
          replace h : (match saveLoop now dbFail (i + 1) w3 bs with
            | Except.ok (w4, c4) => Except.ok (w4, c4 + 1)
            | Except.error e => Except.error e) = Except.ok (w2, c) := h
          cases hr : saveLoop now dbFail (i + 1) w3 bs with
          | error e => rw [hr] at h; cases h
          | ok r =>
            obtain ⟨w4, c4⟩ := r
            rw [hr] at h
            injection h with h
            injection h with _ h
            have := ih (i + 1) w3 w4 c4 hr
            simp [← h, this]
    · rw [if_pos (by simp [hif])] at h
      cases h

/-- A loop that completed without raising passed the `pharma_data[\x27nom\x27]`
access of every candidate: each one carries the key. -/
theorem saveLoop_nom_present (now : Nat) (dbFail : Option Nat) :
    ∀ (batch : List PharmaData) (i : Nat) (w : List Pharmacie)
      (r : List Pharmacie × Nat), saveLoop now dbFail i w batch = .ok r →
        ∀ d ∈ batch, d.nom.isSome := by
  intro batch
  induction batch with
  | nil => intro i w r _ d hd; cases hd
  | cons d0 bs ih =>
    intro i w r h d hd
    rw [saveLoop_cons] at h
    cases hif : (dbFail == some i : Bool)
    · rw [if_neg (by simp [hif])] at h
      cases hd0 : d0.nom with
      | none => rw [hd0] at h; cases h
      | some v =>
        rw [hd0] at h
        cases hs : chkStep w d0 now with
        | none => rw [hs] at h; cases h
        | some w3 =>
          rw [hs] at h
          replace h : (match saveLoop now dbFail (i + 1) w3 bs with
            | Except.ok (w4, c4) => Except.ok (w4, c4 + 1)
            | Except.error e => Except.error e) = Except.ok r := h
          cases hr : saveLoop now dbFail (i + 1) w3 bs with
          | error e => rw [hr] at h; cases h
          | ok r2 =>
            rcases List.mem_cons.mp hd with hd1 | hd1
            · subst hd1
              simp [hd0]
            · exact ih (i + 1) w3 r2 hr d hd1
    · rw [if_pos (by simp [hif])] at h
      cases h

/-- Any exception in the loop or at commit rolls the transaction back: the
persisted store is unchanged and the reported count is zero (shared helper for
the claims about `save_pharmacies_to_db` and `run_full_scraping`). -/
theorem save_failure_rollback (store : List Pharmacie) (phs : List PharmaData)
    (now : Nat) (dbFail : Option Nat) (commitOk : Bool)
    (h : (∃ e, saveLoop now dbFail 0 store phs = .error e) ∨ commitOk = false) :
    save_pharmacies_to_db store phs now dbFail commitOk = (store, 0) := by
  unfold save_pharmacies_to_db
  cases hr : saveLoop now dbFail 0 store phs with
  | error e => rfl
  | ok r =>
    obtain ⟨w, c⟩ := r
    rcases h with ⟨e, he⟩ | hc
    · rw [hr] at he; cases he
    · rw [hc]
      rfl

/-! ## Phone pattern matching lemmas -/

/-- A pattern containing a `\d` token cannot match at a position of a text
without digit characters. -/
theorem matchToks_none_of_no_digit (ts : List PatTok) (hts : PatTok.digit ∈ ts) :
    ∀ s : List Char, (∀ c ∈ s, c.isDigit = false) → matchToks ts s = none := by
  induction ts with
  | nil => cases hts
  | cons t ts ih =>
    intro s hs
    cases t with
    | lit c =>
      have hts2 : PatTok.digit ∈ ts := (List.mem_cons.mp hts).resolve_left (by simp)
      cases s with
      | nil => rfl
      | cons x xs =>
        show (if (x == c : Bool) then (matchToks ts xs).map (fun m => x :: m) else none) = none
        cases hx : (x == c : Bool)
        · rw [if_neg (by simp [hx])]
        · rw [if_pos (by simp [hx]),
            ih hts2 xs (fun c2 hc2 => hs c2 (List.mem_cons_of_mem x hc2))]
          rfl
    | digit =>
      cases s with
      | nil => rfl
      | cons x xs =>
        show (if (x.isDigit : Bool) then (matchToks ts xs).map (fun m => x :: m) else none) = none
        rw [if_neg (by simp [hs x (List.mem_cons_self x xs)])]
    | optWs =>
      have hts2 : PatTok.digit ∈ ts := (List.mem_cons.mp hts).resolve_left (by simp)
      cases s with
      | nil => exact ih hts2 [] (by intro c hc; cases hc)
      | cons x xs =>
        have h1 := ih hts2 xs (fun c2 hc2 => hs c2 (List.mem_cons_of_mem x hc2))
        have h2 := ih hts2 (x :: xs) hs
        show (if isPySpace x then _ else matchToks ts (x :: xs)) = none
        cases hsp : isPySpace x
        · rw [if_neg (by simp [hsp])]
          exact h2
        · rw [if_pos (by simp [hsp]), h1]
          exact h2

/-- `re.search` for a digit-requiring pattern fails on a digit-free text. -/
theorem searchToks_none_of_no_digit (ts : List PatTok) (hts : PatTok.digit ∈ ts) :
    ∀ s : List Char, (∀ c ∈ s, c.isDigit = false) → searchToks ts s = none := by
  intro s
  induction s with
  | nil => intro _; exact matchToks_none_of_no_digit ts hts [] (by intro c hc; cases hc)
  | cons x xs ih =>
    intro hs
    show (match matchToks ts (x :: xs) with
      | some m => some m
      | none => searchToks ts xs) = none
    rw [matchToks_none_of_no_digit ts hts (x :: xs) hs]
    exact ih (fun c2 hc2 => hs c2 (List.mem_cons_of_mem x hc2))

/-- All three phone patterns require at least one digit, so a digit-free text
extracts no phone number (shared helper). -/
theorem extract_phone_none_of_no_digit (s : String)
    (h : ∀ c ∈ s.toList, c.isDigit = false) : extract_phone s = none := by
  unfold extract_phone
  rw [show tryPatterns phonePatterns s.toList =
    (match searchToks phonePattern1 s.toList with
     | some m => some m
     | none =>
       match searchToks phonePattern2 s.toList with
       | some m => some m
       | none =>
         match searchToks phonePattern3 s.toList with
         | some m => some m
         | none => none) from rfl]
  rw [searchToks_none_of_no_digit phonePattern1 (by decide) s.toList h,
    searchToks_none_of_no_digit phonePattern2 (by decide) s.toList h,
    searchToks_none_of_no_digit phonePattern3 (by decide) s.toList h]
  rfl

/-! ## Provider loop lemmas -/

/-- An exception injected at relative position `k` makes the provider loop
return exactly the first `k` enriched records — the prefix accumulated before
the failure. -/
theorem scrapeLoop_failAt_take (geo : String → Option (Rat × Rat)) :
    ∀ (ds : List PharmaData) (i k : Nat),
      scrapeLoop geo (some (i + k)) i ds = (scrapeLoop geo none i ds).take k := by
  intro ds
  induction ds with
  | nil => intro i k; simp [scrapeLoop]
  | cons d ds ih =>
    intro i k
    cases k with
    | zero =>
      show (if (some (i + 0) == some i : Bool) then _ else _) = _
      rw [if_pos (by simp)]
      rfl
    | succ k =>
      show (if (some (i + (k + 1)) == some i : Bool) then _
        else enrichGeo geo d :: scrapeLoop geo (some (i + (k + 1))) (i + 1) ds) = _
      rw [if_neg (by simp)]
      show _ = (enrichGeo geo d :: scrapeLoop geo none (i + 1) ds).take (k + 1)
      rw [List.take_succ_cons]
      have harith : i + (k + 1) = (i + 1) + k := by omega
      rw [harith, ih (i + 1) k]

/-! ## Per-field update equations -/

theorem update_nom_eq (p : Pharmacie) (d : PharmaData) (now : Nat) :
    (p.update_from_dict d now).nom = d.nom.getD p.nom := fvNom.upd_eq p d now

theorem update_adresse_eq (p : Pharmacie) (d : PharmaData) (now : Nat) :
    (p.update_from_dict d now).adresse = d.adresse.getD p.adresse := fvAdresse.upd_eq p d now

theorem update_latitude_eq (p : Pharmacie) (d : PharmaData) (now : Nat) :
    (p.update_from_dict d now).latitude = d.latitude.getD p.latitude :=
  fvLatitude.upd_eq p d now

theorem update_longitude_eq (p : Pharmacie) (d : PharmaData) (now : Nat) :
    (p.update_from_dict d now).longitude = d.longitude.getD p.longitude :=
  fvLongitude.upd_eq p d now

theorem update_telephone_eq (p : Pharmacie) (d : PharmaData) (now : Nat) :
    (p.update_from_dict d now).telephone = d.telephone.getD p.telephone :=
  fvTelephone.upd_eq p d now

theorem update_email_eq (p : Pharmacie) (d : PharmaData) (now : Nat) :
    (p.update_from_dict d now).email = d.email.getD p.email := fvEmail.upd_eq p d now

theorem update_horaires_eq (p : Pharmacie) (d : PharmaData) (now : Nat) :
    (p.update_from_dict d now).horaires = d.horaires.getD p.horaires :=
  fvHoraires.upd_eq p d now

/-! ## Candidates of successful checked runs -/

theorem update_nom_of_present {p : Pharmacie} {d : PharmaData} {now : Nat}
    {v : Option String} (hv : d.nom = some v) :
    (p.update_from_dict d now).nom = nomKey d := by
  rw [update_nom_eq, hv, nomKey, hv]
  rfl

theorem chkMerge_candOk {p : Pharmacie} {d : PharmaData} {now : Nat} {p2 : Pharmacie}
    (h : chkMerge p d now = some p2) (hn : d.nom.isSome) : candOk d = true := by
  obtain ⟨hp2, hv⟩ := chkMerge_some h
  obtain ⟨v, hvn⟩ := Option.isSome_iff_exists.mp hn
  rw [hp2, Pharmacie.validRow, Bool.and_eq_true] at hv
  obtain ⟨hv1, hv2⟩ := hv
  simp only [candOk, Bool.and_eq_true]
  constructor
  · rw [← @update_nom_of_present p d now v hvn]
    exact hv1
  · cases hda : d.adresse with
    | none => rfl
    | some a =>
      have ha : (p.update_from_dict d now).adresse = a := by
        rw [update_adresse_eq, hda]
        rfl
      rw [ha] at hv2
      exact hv2

theorem chkCreate_candOk {d : PharmaData} {now : Nat} {q : Pharmacie}
    (h : chkCreate d now = some q) : candOk d = true := by
  obtain ⟨hq, hv⟩ := chkCreate_some h
  rw [hq, Pharmacie.validRow, Bool.and_eq_true] at hv
  obtain ⟨hv1, hv2⟩ := hv
  simp only [candOk, Bool.and_eq_true]
  constructor
  · exact hv1
  · cases hda : d.adresse with
    | none => rfl
    | some a =>
      rw [create_adresse, hda] at hv2
      simpa using hv2

theorem chkStep_candOk : ∀ (w : List Pharmacie) {d : PharmaData} {now : Nat}
    {w2 : List Pharmacie}, chkStep w d now = some w2 → d.nom.isSome →
      candOk d = true := by
  intro w
  induction w with
  | nil =>
    intro d now w2 h hn
    rw [chkStep_nil] at h
    cases hc : chkCreate d now with
    | none => rw [hc] at h; cases h
    | some q => exact chkCreate_candOk hc
  | cons p ps ih =>
    intro d now w2 h hn
    rw [chkStep_cons] at h
    cases hcond : (p.nom == nomKey d : Bool)
    · rw [if_neg (by simp [hcond])] at h
      cases hs : chkStep ps d now with
      | none => rw [hs] at h; cases h
      | some ps2 => exact ih hs hn
    · rw [if_pos (by simp [hcond])] at h
      cases hm : chkMerge p d now with
      | none => rw [hm] at h; cases h
      | some p2 => exact chkMerge_candOk hm hn

theorem chkRun_candOk : ∀ (batch : List PharmaData) {now : Nat}
    {w u : List Pharmacie}, chkRun batch now w = some u →
      (∀ d ∈ batch, d.nom.isSome) → ∀ d ∈ batch, candOk d = true := by
  intro batch
  induction batch with
  | nil => intro now w u _ _ d hd; cases hd
  | cons d0 ds ih =>
    intro now w u h hn d hd
    rw [chkRun_cons] at h
    cases hs : chkStep w d0 now with
    | none => rw [hs] at h; cases h
    | some w2 =>
      rw [hs] at h
      rcases List.mem_cons.mp hd with hd1 | hd1
      · subst hd1
        exact chkStep_candOk w hs (hn d (List.mem_cons_self d ds))
      · exact ih h (fun x hx => hn x (List.mem_cons_of_mem d0 hx)) d hd1

/-! ## The checked merge fold -/

theorem chkMergeSeq_nil (now : Nat) (p : Pharmacie) : chkMergeSeq [] now p = some p := rfl

theorem chkMergeSeq_cons (c : PharmaData) (cs : List PharmaData) (now : Nat)
    (p : Pharmacie) :
    chkMergeSeq (c :: cs) now p =
      match chkMerge p c now with
      | some p2 => chkMergeSeq cs now p2
      | none => none := rfl

theorem chkMergeSeq_some_eq : ∀ (cs : List PharmaData) (now : Nat) (p q : Pharmacie),
    chkMergeSeq cs now p = some q → q = mergeSeq cs now p := by
  intro cs
  induction cs with
  | nil =>
    intro now p q h
    injection h with h
    rw [← h]
    rfl
  | cons c cs ih =>
    intro now p q h
    rw [chkMergeSeq_cons] at h
    cases hm : chkMerge p c now with
    | none => rw [hm] at h; cases h
    | some p2 =>
      rw [hm] at h
      obtain ⟨hp2, _⟩ := chkMerge_some hm
      rw [ih now p2 q h, hp2, mergeSeq_cons]

/-- A nonempty checked merge fold that succeeds ends on a row that passed its
own NOT NULL check. -/
theorem chkMergeSeq_valid : ∀ (cs : List PharmaData) (c : PharmaData) (now : Nat)
    (p q : Pharmacie), chkMergeSeq (c :: cs) now p = some q → q.validRow = true := by
  intro cs
  induction cs with
  | nil =>
    intro c now p q h
    rw [chkMergeSeq_cons] at h
    cases hm : chkMerge p c now with
    | none => rw [hm] at h; cases h
    | some p2 =>
      rw [hm] at h
      injection h with h
      obtain ⟨_, hv⟩ := chkMerge_some hm
      rw [← h]
      exact hv
  | cons c2 cs ih =>
    intro c now p q h
    rw [chkMergeSeq_cons] at h
    cases hm : chkMerge p c now with
    | none => rw [hm] at h; cases h
    | some p2 =>
      rw [hm] at h
      exact ih c2 now p2 q h

/-- Merging candidates that carry non-null key values into an already-valid
row never trips the NOT NULL check: the checked fold succeeds and computes the
plain merge.  This is what makes rerunning a successfully persisted batch
succeed again. -/
theorem chkMergeSeq_of_candOk : ∀ (cs : List PharmaData) (now : Nat) (p : Pharmacie),
    p.validRow = true → (∀ d ∈ cs, d.nom.isSome) → (∀ d ∈ cs, candOk d = true) →
      chkMergeSeq cs now p = some (mergeSeq cs now p) := by
  intro cs
  induction cs with
  | nil => intro now p _ _ _; rfl
  | cons c cs ih =>
    intro now p hp hn hok
    have hnc := hn c (List.mem_cons_self c cs)
    have hokc := hok c (List.mem_cons_self c cs)
    obtain ⟨v, hv⟩ := Option.isSome_iff_exists.mp hnc
    simp only [candOk, Bool.and_eq_true] at hokc
    obtain ⟨hok1, hok2⟩ := hokc
    have hval : (p.update_from_dict c now).validRow = true := by
      rw [Pharmacie.validRow, Bool.and_eq_true]
      constructor
      · rw [@update_nom_of_present p c now v hv]
        exact hok1
      · cases hda : c.adresse with
        | none =>
          have he : (p.update_from_dict c now).adresse = p.adresse := by
            rw [update_adresse_eq, hda]
            rfl
          rw [he]
          rw [Pharmacie.validRow, Bool.and_eq_true] at hp
          exact hp.2
        | some a =>
          have he : (p.update_from_dict c now).adresse = a := by
            rw [update_adresse_eq, hda]
            rfl
          rw [he]
          rw [hda] at hok2
          exact hok2
    rw [chkMergeSeq_cons,
      show chkMerge p c now = some (p.update_from_dict c now) from by
        unfold chkMerge
        rw [if_pos hval]]
    show chkMergeSeq cs now (p.update_from_dict c now) = some (mergeSeq (c :: cs) now p)
    rw [ih now (p.update_from_dict c now) hval
      (fun d hd => hn d (List.mem_cons_of_mem c hd))
      (fun d hd => hok d (List.mem_cons_of_mem c hd)), mergeSeq_cons]

/-! ## Decomposition of the checked run -/

/-- Checked analog of `fullRun_cons_split`: the candidates selecting the head
row are exactly those checked-merged into it, the rest of the batch runs
checked on the tail, and the whole run fails exactly when either part fails. -/
theorem chkRun_cons_split : ∀ (batch : List PharmaData) (now : Nat) (p : Pharmacie)
    (w : List Pharmacie),
    chkRun batch now (p :: w) =
      match chkMergeSeq (batch.filter (fun d => p.nom == nomKey d)) now p with
      | none => none
      | some p2 =>
        match chkRun (batch.filter (fun d => !(p.nom == nomKey d))) now w with
        | none => none
        | some w2 => some (p2 :: w2) := by
  intro batch
  induction batch with
  | nil => intro now p w; rfl
  | cons d bs ih =>
    intro now p w
    cases hcond : (p.nom == nomKey d : Bool)
    · have hstep : chkStep (p :: w) d now = (chkStep w d now).map (fun w2 => p :: w2) := by
        rw [chkStep_cons, if_neg (by simp [hcond])]
      have hf1 : List.filter (fun d2 => p.nom == nomKey d2) (d :: bs) =
          List.filter (fun d2 => p.nom == nomKey d2) bs := by
        rw [List.filter_cons]
        simp [hcond]
      have hf2 : List.filter (fun d2 => !(p.nom == nomKey d2)) (d :: bs) =
          d :: List.filter (fun d2 => !(p.nom == nomKey d2)) bs := by
        rw [List.filter_cons]
        simp [hcond]
      rw [chkRun_cons, hstep, hf1, hf2,
        show chkRun (d :: List.filter (fun d2 => !(p.nom == nomKey d2)) bs) now w =
          (match chkStep w d now with
           | some w2 => chkRun (List.filter (fun d2 => !(p.nom == nomKey d2)) bs) now w2
           | none => none) from rfl]
      cases hs : chkStep w d now with
      | none =>
        cases hq : chkMergeSeq (List.filter (fun d2 => p.nom == nomKey d2) bs) now p with
        | none => rfl
        | some p2 => rfl
      | some w2 =>
        show chkRun bs now (p :: w2) = _
        rw [ih now p w2]
    · have hstep : chkStep (p :: w) d now = (chkMerge p d now).map (fun p2 => p2 :: w) := by
        rw [chkStep_cons, if_pos (by simp [hcond])]
      have hf1 : List.filter (fun d2 => p.nom == nomKey d2) (d :: bs) =
          d :: List.filter (fun d2 => p.nom == nomKey d2) bs := by
        rw [List.filter_cons]
        simp [hcond]
      have hf2 : List.filter (fun d2 => !(p.nom == nomKey d2)) (d :: bs) =
          List.filter (fun d2 => !(p.nom == nomKey d2)) bs := by
        rw [List.filter_cons]
        simp [hcond]
      rw [chkRun_cons, hstep, hf1, hf2, chkMergeSeq_cons]
      cases hm : chkMerge p d now with
      | none => rfl
      | some p2 =>
        have hp2 : p2.nom = p.nom := by
          obtain ⟨he, _⟩ := chkMerge_some hm
          rw [he]
          exact update_nom_of_match p d now (eq_of_beq hcond)
        show chkRun bs now (p2 :: w) =
          match chkMergeSeq (List.filter (fun d2 => p.nom == nomKey d2) bs) now p2 with
          | none => none
          | some p3 =>
            match chkRun (List.filter (fun d2 => !(p.nom == nomKey d2)) bs) now w with
            | none => none
            | some w2 => some (p3 :: w2)
        rw [ih now p2 w]
        simp only [hp2]

/-! ## The validity invariant left by a successful run -/

theorem validInv_nil_aux (now : Nat) :
    ∀ (n : Nat) (batch : List PharmaData) (u : List Pharmacie), batch.length ≤ n →
      chkRun batch now [] = some u → ValidInv batch u := by
  intro n
  induction n with
  | zero =>
    intro batch u hlen h
    have hb : batch = [] := List.length_eq_zero.mp (Nat.le_zero.mp hlen)
    subst hb
    injection h with h
    rw [← h]
    rfl
  | succ n ih =>
    intro batch u hlen h
    cases batch with
    | nil =>
      injection h with h
      rw [← h]
      rfl
    | cons d bs =>
      rw [chkRun_cons, chkStep_nil] at h
      cases hc : chkCreate d now with
      | none => rw [hc] at h; cases h
      | some q =>
        rw [hc] at h
        replace h : chkRun bs now [q] = some u := h
        rw [chkRun_cons_split] at h
        obtain ⟨hq, hqv⟩ := chkCreate_some hc
        have hqn : q.nom = nomKey d := by rw [hq]; rfl
        cases hm : chkMergeSeq (bs.filter (fun d2 => q.nom == nomKey d2)) now q with
        | none => rw [hm] at h; cases h
        | some q1 =>
          rw [hm] at h
          cases hr : chkRun (bs.filter (fun d2 => !(q.nom == nomKey d2))) now [] with
          | none => rw [hr] at h; cases h
          | some u1 =>
            rw [hr] at h
            injection h with h
            rw [← h]
            have hq1v : q1.validRow = true := by
              cases hfe : bs.filter (fun d2 => q.nom == nomKey d2) with
              | nil =>
                rw [hfe] at hm
                injection hm with hm2
                rw [← hm2]
                exact hqv
              | cons c cs =>
                rw [hfe] at hm
                exact chkMergeSeq_valid cs c now q q1 hm
            have hq1n : q1.nom = nomKey d := by
              rw [chkMergeSeq_some_eq _ _ _ _ hm,
                mergeSeq_nom_const _ _ _ (fun d2 hd2 =>
                  nomKey_of_mem_filter bs q.nom d2 hd2), hqn]
            refine ⟨fun _ => hq1v, ?_⟩
            have hft : List.filter (fun d2 => !(q1.nom == nomKey d2)) (d :: bs) =
                List.filter (fun d2 => !(nomKey d == nomKey d2)) bs := by
              simp only [hq1n]
              rw [List.filter_cons]
              simp
            rw [hft]
            simp only [hqn] at hr
            have hlen2 : (List.filter (fun d2 => !(nomKey d == nomKey d2)) bs).length ≤ n := by
              have h1 := List.length_filter_le (fun d2 => !(nomKey d == nomKey d2)) bs
              have h2 : bs.length ≤ n := Nat.le_of_succ_le_succ hlen
              omega
            exact ih _ u1 hlen2 hr

/-- A successful checked run leaves every row selected by one of the batch's
name-groups valid: it wrote that row last and the write passed its flush
check. -/
theorem validInv_of_chkRun : ∀ (store : List Pharmacie) (batch : List PharmaData)
    (now : Nat) (u : List Pharmacie), chkRun batch now store = some u →
      ValidInv batch u := by
  intro store
  induction store with
  | nil => intro batch now u h; exact validInv_nil_aux now batch.length batch u le_rfl h
  | cons p w ih =>
    intro batch now u h
    rw [chkRun_cons_split] at h
    cases hm : chkMergeSeq (batch.filter (fun d => p.nom == nomKey d)) now p with
    | none => rw [hm] at h; cases h
    | some p1 =>
      rw [hm] at h
      cases hr : chkRun (batch.filter (fun d => !(p.nom == nomKey d))) now w with
      | none => rw [hr] at h; cases h
      | some w1 =>
        rw [hr] at h
        injection h with h
        rw [← h]
        have hp1n : p1.nom = p.nom := by
          rw [chkMergeSeq_some_eq _ _ _ _ hm,
            mergeSeq_nom_const _ _ _ (fun d2 hd2 =>
              nomKey_of_mem_filter batch p.nom d2 hd2)]
        refine ⟨?_, ?_⟩
        · simp only [hp1n]
          intro hne
          cases hfe : batch.filter (fun d => p.nom == nomKey d) with
          | nil => exact absurd hfe hne
          | cons c cs =>
            rw [hfe] at hm
            exact chkMergeSeq_valid cs c now p p1 hm
        · simp only [hp1n]
          exact ih _ now w1 hr

/-- On a working set carrying the validity invariant, rerunning the batch
never trips a NOT NULL check: the checked run succeeds and computes the plain
reconciliation fold. -/
theorem chkRun_total_of_validInv : ∀ (u : List Pharmacie) (batch : List PharmaData)
    (now : Nat), (∀ d ∈ batch, d.nom.isSome) → (∀ d ∈ batch, candOk d = true) →
      ValidInv batch u → chkRun batch now u = some (fullRun batch now u) := by
  intro u
  induction u with
  | nil =>
    intro batch now _ _ hinv
    have hb : batch = [] := hinv
    subst hb
    rfl
  | cons p w ih =>
    intro batch now hn hok hinv
    obtain ⟨h1, h2⟩ := hinv
    rw [chkRun_cons_split, fullRun_cons_split]
    cases hfe : batch.filter (fun d => p.nom == nomKey d) with
    | nil =>
      show (match chkRun (batch.filter (fun d => !(p.nom == nomKey d))) now w with
        | none => none
        | some w2 => some (p :: w2)) = _
      rw [ih (batch.filter (fun d => !(p.nom == nomKey d))) now
        (fun d hd => hn d (List.mem_filter.mp hd).1)
        (fun d hd => hok d (List.mem_filter.mp hd).1) h2]
      rfl
    | cons c cs =>
      have hsub : ∀ d ∈ c :: cs, d ∈ batch := by
        intro d hd
        have hmem : d ∈ batch.filter (fun d => p.nom == nomKey d) := by
          rw [hfe]
          exact hd
        exact (List.mem_filter.mp hmem).1
      have hpv : p.validRow = true := h1 (by rw [hfe]; simp)
      have hms := chkMergeSeq_of_candOk (c :: cs) now p hpv
        (fun d hd => hn d (hsub d hd)) (fun d hd => hok d (hsub d hd))
      rw [hms]
      show (match chkRun (batch.filter (fun d => !(p.nom == nomKey d))) now w with
        | none => none
        | some w2 => some (mergeSeq (c :: cs) now p :: w2)) = _
      rw [ih (batch.filter (fun d => !(p.nom == nomKey d))) now
        (fun d hd => hn d (List.mem_filter.mp hd).1)
        (fun d hd => hok d (List.mem_filter.mp hd).1) h2]

/-! ## Clock independence of the checked run

The loop reads the clock only to stamp `date_maj` / `date_creation`; name
matching and the NOT NULL checks never look at a date, so two runs of the same
batch at different clock values succeed or fail together. -/

theorem stripDates_nom {p q : Pharmacie} (h : stripDates p = stripDates q) :
    p.nom = q.nom := by
  have h2 := congrArg Pharmacie.nom h
  exact h2

theorem stripDates_adresse {p q : Pharmacie} (h : stripDates p = stripDates q) :
    p.adresse = q.adresse := by
  have h2 := congrArg Pharmacie.adresse h
  exact h2

theorem stripDates_latitude {p q : Pharmacie} (h : stripDates p = stripDates q) :
    p.latitude = q.latitude := by
  have h2 := congrArg Pharmacie.latitude h
  exact h2

theorem stripDates_longitude {p q : Pharmacie} (h : stripDates p = stripDates q) :
    p.longitude = q.longitude := by
  have h2 := congrArg Pharmacie.longitude h
  exact h2

theorem stripDates_telephone {p q : Pharmacie} (h : stripDates p = stripDates q) :
    p.telephone = q.telephone := by
  have h2 := congrArg Pharmacie.telephone h
  exact h2

theorem stripDates_email {p q : Pharmacie} (h : stripDates p = stripDates q) :
    p.email = q.email := by
  have h2 := congrArg Pharmacie.email h
  exact h2

theorem stripDates_horaires {p q : Pharmacie} (h : stripDates p = stripDates q) :
    p.horaires = q.horaires := by
  have h2 := congrArg Pharmacie.horaires h
  exact h2

theorem stripDates_eq_of_fields {p q : Pharmacie}
    (h1 : q.nom = p.nom) (h2 : q.adresse = p.adresse) (h3 : q.latitude = p.latitude)
    (h4 : q.longitude = p.longitude) (h5 : q.telephone = p.telephone)
    (h6 : q.email = p.email) (h7 : q.horaires = p.horaires) :
    stripDates q = stripDates p := by
  cases p
  cases q
  simp_all [stripDates]

theorem stripDates_validRow {p q : Pharmacie} (h : stripDates p = stripDates q) :
    p.validRow = q.validRow := by
  rw [Pharmacie.validRow, Pharmacie.validRow, stripDates_nom h, stripDates_adresse h]

theorem stripDates_update {p q : Pharmacie} (h : stripDates p = stripDates q)
    (d : PharmaData) (now1 now2 : Nat) :
    stripDates (p.update_from_dict d now1) = stripDates (q.update_from_dict d now2) := by
  apply stripDates_eq_of_fields
  · rw [update_nom_eq, update_nom_eq, stripDates_nom h]
  · rw [update_adresse_eq, update_adresse_eq, stripDates_adresse h]
  · rw [update_latitude_eq, update_latitude_eq, stripDates_latitude h]
  · rw [update_longitude_eq, update_longitude_eq, stripDates_longitude h]
  · rw [update_telephone_eq, update_telephone_eq, stripDates_telephone h]
  · rw [update_email_eq, update_email_eq, stripDates_email h]
  · rw [update_horaires_eq, update_horaires_eq, stripDates_horaires h]

theorem chkMerge_sim {p q : Pharmacie} (h : stripDates p = stripDates q)
    (d : PharmaData) (now1 now2 : Nat) :
    Option.map stripDates (chkMerge p d now1) = Option.map stripDates (chkMerge q d now2) := by
  unfold chkMerge
  have hu := stripDates_update h d now1 now2
  have hv := stripDates_validRow hu
  cases hval : (p.update_from_dict d now1).validRow
  · rw [if_neg (by simp [hval]), if_neg (by simp [← hv, hval])]
  · rw [if_pos (by simp [hval]), if_pos (by simp [← hv, hval])]
    show some (stripDates (p.update_from_dict d now1)) =
      some (stripDates (q.update_from_dict d now2))
    rw [hu]

theorem chkCreate_sim (d : PharmaData) (now1 now2 : Nat) :
    Option.map stripDates (chkCreate d now1) = Option.map stripDates (chkCreate d now2) := by
  unfold chkCreate
  have hv : (Pharmacie.create_from_dict d now1).validRow =
      (Pharmacie.create_from_dict d now2).validRow := rfl
  cases hval : (Pharmacie.create_from_dict d now1).validRow
  · rw [if_neg (by simp [hval]), if_neg (by simp [← hv, hval])]
  · rw [if_pos (by simp [hval]), if_pos (by simp [← hv, hval])]
    rfl

theorem chkStep_sim : ∀ (w1 w2 : List Pharmacie),
    w1.map stripDates = w2.map stripDates → ∀ (d : PharmaData) (now1 now2 : Nat),
      Option.map (List.map stripDates) (chkStep w1 d now1) =
        Option.map (List.map stripDates) (chkStep w2 d now2) := by
  intro w1
  induction w1 with
  | nil =>
    intro w2 h d now1 now2
    cases w2 with
    | nil =>
      rw [chkStep_nil, chkStep_nil]
      have hc := chkCreate_sim d now1 now2
      cases h1 : chkCreate d now1 <;> cases h2 : chkCreate d now2 <;>
        rw [h1, h2] at hc <;> simp_all
    | cons q qs => simp at h
  | cons p ps ih =>
    intro w2 h d now1 now2
    cases w2 with
    | nil => simp at h
    | cons q qs =>
      simp only [List.map_cons, List.cons.injEq] at h
      obtain ⟨hpq, htail⟩ := h
      have hnom : p.nom = q.nom := stripDates_nom hpq
      rw [chkStep_cons, chkStep_cons, hnom]
      cases hcond : (q.nom == nomKey d : Bool)
      · rw [if_neg (by simp [hcond]), if_neg (by simp [hcond])]
        have hs := ih qs htail d now1 now2
        cases h1 : chkStep ps d now1 <;> cases h2 : chkStep qs d now2 <;>
          rw [h1, h2] at hs <;> simp_all
      · rw [if_pos (by simp [hcond]), if_pos (by simp [hcond])]
        have hm := chkMerge_sim hpq d now1 now2
        cases h1 : chkMerge p d now1 <;> cases h2 : chkMerge q d now2 <;>
          rw [h1, h2] at hm <;> simp_all

theorem chkRun_sim : ∀ (batch : List PharmaData) (w1 w2 : List Pharmacie),
    w1.map stripDates = w2.map stripDates → ∀ (now1 now2 : Nat),
      Option.map (List.map stripDates) (chkRun batch now1 w1) =
        Option.map (List.map stripDates) (chkRun batch now2 w2) := by
  intro batch
  induction batch with
  | nil =>
    intro w1 w2 h now1 now2
    rw [chkRun_nil, chkRun_nil]
    simpa using h
  | cons d ds ih =>
    intro w1 w2 h now1 now2
    rw [chkRun_cons, chkRun_cons]
    have hs := chkStep_sim w1 w2 h d now1 now2
    cases h1 : chkStep w1 d now1 with
    | none =>
      rw [h1] at hs
      cases h2 : chkStep w2 d now2 with
      | none => rfl
      | some v2 =>
        rw [h2] at hs
        simp at hs
    | some v1 =>
      rw [h1] at hs
      cases h2 : chkStep w2 d now2 with
      | none =>
        rw [h2] at hs
        simp at hs
      | some v2 =>
        rw [h2] at hs
        simp only [Option.map_some'] at hs
        injection hs with hs
        exact ih v1 v2 hs now1 now2

/-! ## Claim theorems -/

/-- C1: for every candidate batch, if any step raises an exception during the
reconciliation loop or at commit, `save_pharmacies_to_db` rolls back the entire
transaction — the persisted store equals its pre-run state, with no candidate
persisted even partially — and the function returns 0. -/
theorem c1_save_rolls_back_on_any_failure (store : List Pharmacie)
    (phs : List PharmaData) (now : Nat) (dbFail : Option Nat) (commitOk : Bool)
    (h : (∃ e, saveLoop now dbFail 0 store phs = .error e) ∨ commitOk = false) :
    save_pharmacies_to_db store phs now dbFail commitOk = (store, 0) :=
  save_failure_rollback store phs now dbFail commitOk h

theorem c1_witness :
    save_pharmacies_to_db [] [{ nom := none }] 0 none true = ([], 0) :=
  c1_save_rolls_back_on_any_failure [] [{ nom := none }] 0 none true (Or.inl ⟨(), rfl⟩)

/-- C2 counterexample: on the text "Call us at +225 27 22 12 34 today" the
extractor does not return "+22527221234": the text's digit grouping
(XX XX XX XX) matches none of the three patterns, which all expect a
XX XXX XXX grouping, so the extractor returns nothing. -/
theorem c2_counterexample :
    extract_phone "Call us at +225 27 22 12 34 today" ≠ some "+22527221234" := by
  decide

/-- C2 (amended): the phone extractor applied to the text "Call us at +225 27
22 12 34 today" returns nothing (no pattern matches that digit grouping), and
applied to any text containing no digit characters it returns nothing. -/
theorem c2_extract_phone_behaviour (s : String)
    (h : ∀ c ∈ s.toList, c.isDigit = false) :
    extract_phone "Call us at +225 27 22 12 34 today" = none ∧ extract_phone s = none :=
  ⟨by decide, extract_phone_none_of_no_digit s h⟩

theorem c2_witness :
    extract_phone "Call us at +225 27 22 12 34 today" = none ∧
      extract_phone "no digits here" = none :=
  c2_extract_phone_behaviour "no digits here" (by decide)

/-- C3 counterexample: a run whose persistence step fails — the commit raises,
the store is rolled back and 0 records are saved — still returns a summary
reporting success. -/
theorem c3_counterexample :
    (run_full_scraping [] (.ok [{ nom := some (some "A") }]) 0 none false 0).1.success
        = true ∧
      save_pharmacies_to_db [] [{ nom := some (some "A") }] 0 none false = ([], 0) := by
  decide

/-- C3 (amended): when the reconciliation/persistence step fails, the run is
not surfaced as failed: `run_full_scraping` still returns a success summary,
reporting zero records saved, with the store rolled back; an error summary is
produced only when the collection step itself raises. -/
theorem c3_run_summary (store : List Pharmacie) (phs : List PharmaData)
    (now : Nat) (dbFail : Option Nat) (commitOk : Bool) (dur : Nat) (e : String)
    (h : (∃ u, saveLoop now dbFail 0 store phs = .error u) ∨ commitOk = false) :
    (run_full_scraping store (.ok phs) now dbFail commitOk dur).1.success = true ∧
      (run_full_scraping store (.ok phs) now dbFail commitOk dur).1.pharmacies_saved
        = some 0 ∧
      (run_full_scraping store (.ok phs) now dbFail commitOk dur).2 = store ∧
      (run_full_scraping store (.error e) now dbFail commitOk dur).1.success = false := by
  have hs := save_failure_rollback store phs now dbFail commitOk h
  refine ⟨rfl, ?_, ?_, rfl⟩
  · show some (save_pharmacies_to_db store phs now dbFail commitOk).2 = some 0
    rw [hs]
  · show (save_pharmacies_to_db store phs now dbFail commitOk).1 = store
    rw [hs]

theorem c3_witness :
    (run_full_scraping [] (.ok [{ nom := none }]) 0 none true 0).1.success = true ∧
      (run_full_scraping [] (.ok [{ nom := none }]) 0 none true 0).1.pharmacies_saved
        = some 0 ∧
      (run_full_scraping [] (.ok [{ nom := none }]) 0 none true 0).2 = [] ∧
      (run_full_scraping [] (.error "boom") 0 none true 0).1.success = false :=
  c3_run_summary [] [{ nom := none }] 0 none true 0 "boom" (Or.inl ⟨(), rfl⟩)

/-- C4 counterexample: at the claim\x27s literal input the program persists
nothing, rather than one merged entity: the first candidate carries no
address, so the row created for it violates the NOT NULL constraint on
`adresse` (models.py line 32); the IntegrityError raised when that row is
flushed rolls the entire transaction back and `save_pharmacies_to_db`
returns 0, even though the commit oracle itself would have succeeded. -/
theorem c4_counterexample :
    save_pharmacies_to_db []
      [{ nom := some (some "A"), telephone := some (some "1") },
       { nom := some (some "A"), adresse := some (some "X") }] 37 none true =
    ([], 0) := by
  decide

/-- C4 (amended): at the claim\x27s literal input — the first candidate carrying
no address — the batch fails against the NOT NULL constraint on `adresse` and
nothing is persisted (full rollback, count 0).  When the first candidate also
carries an address, the two same-name candidates merge cumulatively: the
second reconciles against the entity as already mutated by the first, leaving
exactly one stored entity named "A" with the first candidate\x27s phone and the
second candidate\x27s address. -/
theorem c4_same_name_batch_accumulates :
    save_pharmacies_to_db []
      [{ nom := some (some "A"), telephone := some (some "1") },
       { nom := some (some "A"), adresse := some (some "X") }] 37 none true =
    ([], 0) ∧
    save_pharmacies_to_db []
      [{ nom := some (some "A"), adresse := some (some "Y"),
         telephone := some (some "1") },
       { nom := some (some "A"), adresse := some (some "X") }] 37 none true =
    ([{ nom := some "A", adresse := some "X", latitude := none, longitude := none,
        telephone := some "1", email := none, horaires := none,
        date_creation := 37, date_maj := 37 }], 2) := by
  decide

/-- C5: `update_from_dict` overwrites exactly the columns whose key is present
on the candidate and leaves every column with an absent key unchanged
(`Option.getD` folds both cases into one equation per column); `date_maj` is
refreshed to the current time and `date_creation` is not modified. -/
theorem c5_update_frame (p : Pharmacie) (d : PharmaData) (now : Nat) :
    (p.update_from_dict d now).adresse = d.adresse.getD p.adresse ∧
    (p.update_from_dict d now).latitude = d.latitude.getD p.latitude ∧
    (p.update_from_dict d now).longitude = d.longitude.getD p.longitude ∧
    (p.update_from_dict d now).telephone = d.telephone.getD p.telephone ∧
    (p.update_from_dict d now).email = d.email.getD p.email ∧
    (p.update_from_dict d now).horaires = d.horaires.getD p.horaires ∧
    (p.update_from_dict d now).nom = d.nom.getD p.nom ∧
    (p.update_from_dict d now).date_maj = now ∧
    (p.update_from_dict d now).date_creation = p.date_creation :=
  ⟨fvAdresse.upd_eq p d now, fvLatitude.upd_eq p d now, fvLongitude.upd_eq p d now,
    fvTelephone.upd_eq p d now, fvEmail.upd_eq p d now, fvHoraires.upd_eq p d now,
    fvNom.upd_eq p d now, rfl, rfl⟩

/-- C6: on a batch where no step raises (the loop returns `.ok` and the commit
succeeds), `save_pharmacies_to_db` returns exactly the number of candidates in
the batch; for the empty batch it returns 0, the commit succeeds and the store
is unchanged. -/
theorem c6_save_count (store : List Pharmacie) (phs : List PharmaData) (now : Nat)
    (dbFail : Option Nat) (w : List Pharmacie) (c : Nat)
    (h : saveLoop now dbFail 0 store phs = .ok (w, c)) :
    save_pharmacies_to_db store phs now dbFail true = (w, phs.length) ∧
      save_pharmacies_to_db store [] now dbFail true = (store, 0) := by
  constructor
  · have hc := saveLoop_count now dbFail phs 0 store w c h
    unfold save_pharmacies_to_db
    rw [h]
    simp [hc]
  · rfl

theorem c6_witness :
    (save_pharmacies_to_db []
      [{ nom := some (some "A"), adresse := some (some "B") }] 5 none true =
      ([Pharmacie.create_from_dict
          { nom := some (some "A"), adresse := some (some "B") } 5], 1)) ∧
      save_pharmacies_to_db [] [] 5 none true = ([], 0) :=
  c6_save_count [] [{ nom := some (some "A"), adresse := some (some "B") }] 5 none
    [Pharmacie.create_from_dict
      { nom := some (some "A"), adresse := some (some "B") } 5] 1 rfl

/-- C7: `_geocode_address` appends the fixed suffix ", Abidjan, Côte d'Ivoire"
before the lookup (its result depends only on the oracle's answer at that
suffixed address), and any failing lookup — timeout, service unavailability or
any other exception — returns no result instead of propagating an exception. -/
theorem c7_geocode_failure_degrades
    (g g2 : String → Except GeoExc (Option GeoLocation)) (a : String) (e : GeoExc)
    (he : g (a ++ ", Abidjan, Côte d\x27Ivoire") = .error e)
    (hagree : g2 (a ++ ", Abidjan, Côte d\x27Ivoire") = g (a ++ ", Abidjan, Côte d\x27Ivoire")) :
    geocode_address g a = none ∧ geocode_address g2 a = geocode_address g a := by
  constructor
  · simp only [geocode_address]
    rw [he]
    cases e <;> rfl
  · simp only [geocode_address]
    rw [hagree]

theorem c7_witness :
    geocode_address (fun _ => .error .timedOut) "Rue 12" = none ∧
      geocode_address (fun _ => .error .timedOut) "Rue 12" =
        geocode_address (fun _ => .error .timedOut) "Rue 12" :=
  c7_geocode_failure_degrades (fun _ => .error .timedOut) (fun _ => .error .timedOut)
    "Rue 12" .timedOut rfl rfl

/-- C8: immediately rerunning a successfully reconciled batch leaves the entity
count unchanged and overwrites every field present in the batch with the
identical value: the stored rows are unchanged by the second run except for
the `date_maj` timestamp. -/
theorem c8_reconcile_idempotent (store : List Pharmacie) (batch : List PharmaData)
    (now1 now2 : Nat) (h : ∀ d ∈ batch, d.nom.isSome) :
    ((save_pharmacies_to_db (save_pharmacies_to_db store batch now1 none true).1
        batch now2 none true).1).map stripMaj =
      ((save_pharmacies_to_db store batch now1 none true).1).map stripMaj ∧
    (save_pharmacies_to_db (save_pharmacies_to_db store batch now1 none true).1
        batch now2 none true).1.length =
      (save_pharmacies_to_db store batch now1 none true).1.length := by
  have hrel1 := saveLoop_eq_chkRun now1 batch h 0 store
  cases hc1 : chkRun batch now1 store with
  | none =>
    rw [hc1] at hrel1
    have hsave1 : save_pharmacies_to_db store batch now1 none true = (store, 0) :=
      save_failure_rollback store batch now1 none true (Or.inl ⟨(), hrel1⟩)
    have hsim := chkRun_sim batch store store rfl now1 now2
    rw [hc1] at hsim
    have hc2 : chkRun batch now2 store = none := by
      cases hc2x : chkRun batch now2 store with
      | none => rfl
      | some u =>
        rw [hc2x] at hsim
        simp at hsim
    have hrel2 := saveLoop_eq_chkRun now2 batch h 0 store
    rw [hc2] at hrel2
    have hsave2 : save_pharmacies_to_db store batch now2 none true = (store, 0) :=
      save_failure_rollback store batch now2 none true (Or.inl ⟨(), hrel2⟩)
    rw [hsave1]
    show ((save_pharmacies_to_db store batch now2 none true).1).map stripMaj =
        store.map stripMaj ∧
      (save_pharmacies_to_db store batch now2 none true).1.length = store.length
    rw [hsave2]
    exact ⟨rfl, rfl⟩
  | some u =>
    rw [hc1] at hrel1
    have hu : u = fullRun batch now1 store := chkRun_some_eq batch now1 store u hc1
    have hsave1 : save_pharmacies_to_db store batch now1 none true =
        (u, batch.length) := by
      unfold save_pharmacies_to_db
      rw [hrel1]
      rfl
    have hok := chkRun_candOk batch hc1 h
    have hinv := validInv_of_chkRun store batch now1 u hc1
    have hc2 : chkRun batch now2 u = some (fullRun batch now2 u) :=
      chkRun_total_of_validInv u batch now2 h hok hinv
    have hrel2 := saveLoop_eq_chkRun now2 batch h 0 u
    rw [hc2] at hrel2
    have hsave2 : save_pharmacies_to_db u batch now2 none true =
        (fullRun batch now2 u, batch.length) := by
      unfold save_pharmacies_to_db
      rw [hrel2]
      rfl
    rw [hsave1]
    show ((save_pharmacies_to_db u batch now2 none true).1).map stripMaj =
        u.map stripMaj ∧
      (save_pharmacies_to_db u batch now2 none true).1.length = u.length
    rw [hsave2]
    show (fullRun batch now2 u).map stripMaj = u.map stripMaj ∧
      (fullRun batch now2 u).length = u.length
    have hReconInv : ReconInv batch u := by
      rw [hu]
      exact inv_fullRun store batch now1
    have hmap := map_stripMaj_fullRun_of_inv u batch now2 hReconInv
    refine ⟨hmap, ?_⟩
    have hlen := congrArg List.length hmap
    simpa using hlen

theorem c8_witness :
    ((save_pharmacies_to_db (save_pharmacies_to_db []
        [{ nom := some (some "A"), adresse := some (some "Y"),
           telephone := some (some "1") },
         { nom := some (some "A"), adresse := some (some "X") }] 1 none true).1
        [{ nom := some (some "A"), adresse := some (some "Y"),
           telephone := some (some "1") },
         { nom := some (some "A"), adresse := some (some "X") }] 2 none true).1).map
          stripMaj =
      ((save_pharmacies_to_db []
        [{ nom := some (some "A"), adresse := some (some "Y"),
           telephone := some (some "1") },
         { nom := some (some "A"), adresse := some (some "X") }] 1 none true).1).map
          stripMaj ∧
    (save_pharmacies_to_db (save_pharmacies_to_db []
        [{ nom := some (some "A"), adresse := some (some "Y"),
           telephone := some (some "1") },
         { nom := some (some "A"), adresse := some (some "X") }] 1 none true).1
        [{ nom := some (some "A"), adresse := some (some "Y"),
           telephone := some (some "1") },
         { nom := some (some "A"), adresse := some (some "X") }] 2 none true).1.length =
      (save_pharmacies_to_db []
        [{ nom := some (some "A"), adresse := some (some "Y"),
           telephone := some (some "1") },
         { nom := some (some "A"), adresse := some (some "X") }] 1 none true).1.length :=
  c8_reconcile_idempotent []
    [{ nom := some (some "A"), adresse := some (some "Y"),
       telephone := some (some "1") },
     { nom := some (some "A"), adresse := some (some "X") }] 1 2 (by decide)

/-- C9 counterexample: an exception injected while the provider processes its
second record is caught, and the provider yields the partial one-record
sequence accumulated before the failure — not an empty sequence. -/
theorem c9_counterexample :
    scrape_pharmacies_garde (fun _ => none) (some 1) =
      [{ nom := some (some "Pharmacie de Garde Cocody"),
         adresse := some (some "Cocody, Abidjan, Côte d\x27Ivoire"),
         telephone := some (some "+225 27 22 12 34"),
         email := some (some "garde.cocody@pharma.ci") }] ∧
      scrape_pharmacies_garde (fun _ => none) (some 1) ≠ [] := by
  decide

/-- C9 (amended): an exception during a provider's internal processing is
caught and does not propagate, and the provider yields the records accumulated
before the failure — a prefix of its no-failure output, which is empty only
when the failure precedes the first record; the remaining providers still run,
the collection being the concatenation of the three providers' outputs. -/
theorem c9_provider_failure_accumulated (geo : String → Option (Rat × Rat)) (k : Nat)
    (failGarde failAnnuaire : Option Nat) :
    scrape_pharmacies_garde geo (some k) = (scrape_pharmacies_garde geo none).take k ∧
    scrape_annuaire_pharmacies geo (some k) =
      (scrape_annuaire_pharmacies geo none).take k ∧
    scrape_pharmacies_abidjan geo failGarde failAnnuaire =
      scrape_pharmacies_garde geo failGarde ++
        (scrape_annuaire_pharmacies geo failAnnuaire ++ get_pharmacies_populaires geo) := by
  refine ⟨?_, ?_, rfl⟩
  · have h := scrapeLoop_failAt_take geo garde_sample_data 0 k
    rw [Nat.zero_add k] at h
    exact h
  · have h := scrapeLoop_failAt_take geo annuaire_sample_data 0 k
    rw [Nat.zero_add k] at h
    exact h

/-- C10: in `update_from_dict`, "present on the candidate" means the key is in
the dict regardless of its value: a key present but mapped to null overwrites
the stored value with null rather than leaving it untouched — and the annuaire
provider's third sample record does carry such an explicit null email. -/
theorem c10_null_value_overwrites (p : Pharmacie) (d : PharmaData) (now : Nat)
    (h : d.email = some none) :
    (p.update_from_dict d now).email = none ∧
      annuaire_sample_data.map PharmaData.email =
        [some (some "contact@pharmacie-centrale.ci"),
         some (some "info@pharmacie-saintjean.ci"), some none] := by
  constructor
  · simp [Pharmacie.update_from_dict, h]
  · rfl

theorem c10_witness :
    (({ nom := some "Pharmacie du Marché", adresse := none, latitude := none,
        longitude := none, telephone := none, email := some "old@pharma.ci",
        horaires := none, date_creation := 0, date_maj := 0 : Pharmacie
      }.update_from_dict { email := some none } 3).email = none) ∧
      annuaire_sample_data.map PharmaData.email =
        [some (some "contact@pharmacie-centrale.ci"),
         some (some "info@pharmacie-saintjean.ci"), some none] :=
  c10_null_value_overwrites
    { nom := some "Pharmacie du Marché", adresse := none, latitude := none,
      longitude := none, telephone := none, email := some "old@pharma.ci",
      horaires := none, date_creation := 0, date_maj := 0 }
    { email := some none } 3 rfl
